import Mathlib

/-!
Verification development for the costops repository core:
shallow embedding of the repo-mapper, savings estimator, rule registry,
rule engine, recommendation reconciler and patch generator, with proofs
of the specified properties.

Conventions of the embedding:
* TypeScript strings are Lean `String`s; `String.prototype.includes`,
  basename splitting, lower-casing and the fallback regexes are embedded
  as executable functions over the character list `String.data`.
* JSON numbers are rationals (`ℚ`); the data model declares tag maps as
  string→string and metric maps as string→number, so tag values are
  `String` and metric values are `JVal` (string or number or null).
* Async environment calls (Azure client, GitHub tree, JSON.parse,
  Date.parse, wall clock) are passed as explicit parameters.
-/

/-- First-match association-list lookup, the model of a JS object
property read (object keys are unique, so first match suffices). -/
def alookup {α : Type} (l : List (String × α)) (k : String) : Option α :=
  (l.find? (fun p => p.1 == k)).map (fun p => p.2)

/-- `startsL hay pre` is true iff `pre` is a leading segment of `hay`. -/
def startsL : List Char → List Char → Bool
  | _, [] => true
  | [], _ :: _ => false
  | a :: as, b :: bs => a == b && startsL as bs

/-- Substring occurrence on character lists: the model of
`String.prototype.includes`. -/
def containsL : List Char → List Char → Bool
  | [], n => n.isEmpty
  | h :: t, n => startsL (h :: t) n || containsL t n

/-- Model of `String.prototype.includes`. -/
def jsIncludes (s sub : String) : Bool :=
  containsL s.data sub.data

/-- Model of `String.prototype.startsWith`. -/
def strStarts (s pre : String) : Bool :=
  startsL s.data pre.data

/-- Model of `String.prototype.endsWith`. -/
def strEnds (s suf : String) : Bool :=
  startsL s.data.reverse suf.data.reverse

/-- Model of `String.prototype.toLowerCase` (ASCII range, which is all
the source compares). -/
def jsToLower (s : String) : String :=
  ⟨s.data.map Char.toLower⟩

namespace RepoMapper

/-- `IaCFileFormat` from src/lib/github/repoMapper.ts. -/
inductive IaCFileFormat
  | terraform
  | bicep
  | arm
deriving DecidableEq

/-- `IaCFileMatch` from repoMapper.ts. -/
structure IaCFileMatch where
  path : String
  format : IaCFileFormat
deriving DecidableEq

/-- Git tree entry kinds returned by `getRepositoryTree`. -/
inductive TreeItemType
  | blob
  | tree
deriving DecidableEq

/-- An entry of the repository tree (`{ path, type }`). -/
structure TreeItem where
  path : String
  type : TreeItemType
deriving DecidableEq

/-- `inferFormatFromPath` from repoMapper.ts. -/
def inferFormatFromPath (path : String) : Option IaCFileFormat :=
  let lower := jsToLower path
  if strEnds lower ".tf" then some .terraform
  else if strEnds lower ".bicep" then some .bicep
  else if strEnds lower ".json" || strEnds lower ".arm" then some .arm
  else none

/-- Lower-case ASCII letter or digit: the character class `[a-z0-9]`
applied after `toLowerCase`. -/
def isLowerAlnum (c : Char) : Bool :=
  ('a' ≤ c && c ≤ 'z') || ('0' ≤ c && c ≤ '9')

/-- Replace each maximal run of characters outside `[a-z0-9]` by a single
hyphen: the `replace(/[^a-z0-9]+/g, "-")` step.  The boolean flag records
whether the previous character was inside such a run. -/
def collapseRuns : Bool → List Char → List Char
  | _, [] => []
  | inRun, c :: rest =>
    if isLowerAlnum c then c :: collapseRuns false rest
    else if inRun then collapseRuns true rest
    else '-' :: collapseRuns true rest

/-- `normalizeResourceName` from repoMapper.ts: lowercase, collapse
non-alphanumeric runs to single hyphens, trim hyphens at both ends. -/
def normalizeResourceName (name : String) : String :=
  let lowered := (jsToLower name).data
  let collapsed := collapseRuns false lowered
  ⟨((collapsed.dropWhile (fun c => c == '-')).reverse.dropWhile
      (fun c => c == '-')).reverse⟩

/-- Basename of a path: `path.split("/").pop() ?? ""`. -/
def baseName (path : String) : String :=
  ⟨(path.data.reverse.takeWhile (fun c => c != '/')).reverse⟩

/-- `^(dir1|...)\/.+\.(ext1|...)$` applied to a path: starts with one of
the directory prefixes followed by a slash, ends with a dot and one of
the extensions, with at least one character in between, none of them a
newline (the regex `.` does not match newlines). -/
def dirExtPattern (dirs exts : List String) (p : String) : Bool :=
  dirs.any (fun d => exts.any (fun e =>
    let pre := (d ++ "/").data
    let suf := ("." ++ e).data
    let mid := (p.data.drop pre.length).take (p.data.length - pre.length - suf.length)
    strStarts p (d ++ "/") && strEnds p ("." ++ e) &&
      pre.length + suf.length < p.data.length &&
      mid.all (fun c => c != '\n')))

/-- The ordered `fallbackPatterns` list from `findIaCFileForResource`:
each entry is the test of the regular expression, paired with its
declared format. -/
def fallbackPatterns : List ((String → Bool) × IaCFileFormat) :=
  [ (dirExtPattern ["infra", "iac", "terraform"] ["tf"], .terraform),
    (dirExtPattern ["modules", "environments"] ["tf"], .terraform),
    (dirExtPattern ["bicep", "azure-bicep"] ["bicep"], .bicep),
    (dirExtPattern ["arm", "templates", "deployments"] ["json", "arm"], .arm),
    (fun p => strEnds p "main.tf", .terraform) ]

/-- Inner loop of the fallback step: try each pattern in order against
one candidate path; on a regex hit, return the path with its inferred
format, or keep scanning if the extension infers no format. -/
def patScan (p : String) : List ((String → Bool) × IaCFileFormat) → Option IaCFileMatch
  | [] => none
  | (test, _) :: rest =>
    if test p then
      match inferFormatFromPath p with
      | some f => some ⟨p, f⟩
      | none => patScan p rest
    else patScan p rest

/-- Outer loop of the fallback step of `findIaCFileForResource`: files in
tree order, patterns tried in order for each file. -/
def fallbackScan : List TreeItem → Option IaCFileMatch
  | [] => none
  | item :: rest =>
    match patScan item.path fallbackPatterns with
    | some m => some m
    | none => fallbackScan rest

/-- The tag-hint path: `tags?.iac_path ?? tags?.IacPath ?? tags?.iacPath`. -/
def tagHintPath (tags : Option (List (String × String))) : Option String :=
  match tags with
  | none => none
  | some t =>
    (alookup t "iac_path").orElse fun _ =>
      (alookup t "IacPath").orElse fun _ => alookup t "iacPath"

/-- Step 1 of `findIaCFileForResource`: a tag hint is used only when its
extension maps to a known format; otherwise the function falls through
to the repository tree. -/
def tagStep (tags : Option (List (String × String))) : Option IaCFileMatch :=
  (tagHintPath tags).bind fun p =>
    (inferFormatFromPath p).map fun f => ⟨p, f⟩

/-- Step 2 of `findIaCFileForResource`: find the first blob whose
lower-cased basename contains the slug; if one is found, return it when
its extension maps to a known format, and otherwise yield nothing (the
source falls through to the pattern fallback in that case). -/
def filenameStep (files : List TreeItem) (slug : String) : Option IaCFileMatch :=
  if slug == "" then none
  else
    match files.find? (fun item =>
        containsL (jsToLower (baseName item.path)).data slug.data) with
    | none => none
    | some item => (inferFormatFromPath item.path).map fun f => ⟨item.path, f⟩

/-- `findIaCFileForResource` from repoMapper.ts, with the repository tree
passed in place of the `getRepositoryTree` call. -/
def findIaCFileForResource (tags : Option (List (String × String)))
    (name : String) (tree : List TreeItem) : Option IaCFileMatch :=
  match tagStep tags with
  | some m => some m
  | none =>
    let files := tree.filter (fun item => item.type == .blob)
    match filenameStep files (normalizeResourceName name) with
    | some m => some m
    | none => fallbackScan files

/-- Modelled from the spec: the fallback ordering the specification
describes — "return the first path matching any pattern, in pattern-list
order, then file-list order", i.e. patterns in the outer loop and files
in the inner loop.  Used only to compare against the source's
`fallbackScan`. -/
def fallbackPatternMajor (files : List TreeItem) : Option IaCFileMatch :=
  fallbackPatterns.findSome? fun pr =>
    files.findSome? fun item =>
      if pr.1 item.path then
        (inferFormatFromPath item.path).map fun f => ⟨item.path, f⟩
      else none

end RepoMapper

namespace Savings

/-- `VM_SKU_PRICING` from src/lib/rules/savings.ts. -/
def VM_SKU_PRICING : String → Option ℚ :=
  alookup
    [ ("Standard_B2s", 35), ("Standard_B4ms", 70), ("Standard_D2s_v3", 120),
      ("Standard_D4s_v3", 240), ("Standard_D8s_v3", 480),
      ("Standard_E2s_v3", 160), ("Standard_E4s_v3", 320) ]

/-- `VM_DOWNSIZE_TARGET` from savings.ts. -/
def VM_DOWNSIZE_TARGET : String → Option String :=
  alookup
    [ ("Standard_D8s_v3", "Standard_D4s_v3"), ("Standard_D4s_v3", "Standard_D2s_v3"),
      ("Standard_D2s_v3", "Standard_B4ms"), ("Standard_B4ms", "Standard_B2s"),
      ("Standard_E4s_v3", "Standard_E2s_v3") ]

/-- `DISK_SKU_PRICING_PER_GB` from savings.ts. -/
def DISK_SKU_PRICING_PER_GB : String → Option ℚ :=
  alookup
    [ ("Premium_LRS", 0.12), ("Premium_ZRS", 0.14), ("StandardSSD_LRS", 0.08),
      ("StandardSSD_ZRS", 0.09), ("Standard_LRS", 0.06), ("Standard_ZRS", 0.065) ]

/-- `DISK_DOWNGRADE_TARGET` from savings.ts. -/
def DISK_DOWNGRADE_TARGET : String → Option String :=
  alookup
    [ ("Premium_LRS", "StandardSSD_LRS"), ("Premium_ZRS", "StandardSSD_ZRS"),
      ("StandardSSD_LRS", "Standard_LRS"), ("StandardSSD_ZRS", "Standard_ZRS") ]

/-- `STORAGE_TIER_PRICING_PER_GB` from savings.ts. -/
def STORAGE_TIER_PRICING_PER_GB : String → Option ℚ :=
  alookup [("Hot", 0.02), ("Cool", 0.015), ("Archive", 0.002)]

/-- `STORAGE_TIER_DOWNGRADE_TARGET` from savings.ts. -/
def STORAGE_TIER_DOWNGRADE_TARGET : String → Option String :=
  alookup [("Hot", "Cool"), ("Cool", "Archive")]

/-- `SQL_SKU_PRICING` from savings.ts. -/
def SQL_SKU_PRICING : String → Option ℚ :=
  alookup
    [ ("GP_Gen5_8", 600), ("GP_Gen5_4", 330), ("GP_Gen5_2", 180),
      ("GP_Gen5_1", 95), ("HS_Gen5_8", 680) ]

/-- `SQL_DOWNSIZE_TARGET` from savings.ts. -/
def SQL_DOWNSIZE_TARGET : String → Option String :=
  alookup
    [ ("GP_Gen5_8", "GP_Gen5_4"), ("GP_Gen5_4", "GP_Gen5_2"),
      ("GP_Gen5_2", "GP_Gen5_1"), ("HS_Gen5_8", "GP_Gen5_4") ]

/-- `APP_SERVICE_SKU_PRICING` from savings.ts. -/
def APP_SERVICE_SKU_PRICING : String → Option ℚ :=
  alookup
    [ ("P3v3", 400), ("P2v3", 250), ("P1v3", 130), ("S2", 90),
      ("S1", 60), ("B1", 30) ]

/-- `APP_SERVICE_DOWNGRADE_TARGET` from savings.ts. -/
def APP_SERVICE_DOWNGRADE_TARGET : String → Option String :=
  alookup [("P3v3", "P2v3"), ("P2v3", "P1v3"), ("S2", "S1"), ("S1", "B1")]

/-- `diffPositive` from savings.ts. -/
def diffPositive (current target : ℚ) : ℚ :=
  let delta := current - target
  if delta > 0 then delta else 0

/-- Downgrade lookup of the shape shared by all `getRecommended*Sku`
functions: a falsy current tier (absent or empty string) yields null,
otherwise the target map is consulted. -/
def recommendFrom (targetMap : String → Option String)
    (currentSku : Option String) : Option String :=
  match currentSku with
  | none => none
  | some s => if s == "" then none else targetMap s

/-- `getRecommendedVmSku` from savings.ts. -/
def getRecommendedVmSku : Option String → Option String :=
  recommendFrom VM_DOWNSIZE_TARGET

/-- `getRecommendedDiskSku` from savings.ts. -/
def getRecommendedDiskSku : Option String → Option String :=
  recommendFrom DISK_DOWNGRADE_TARGET

/-- `getRecommendedStorageTier` from savings.ts. -/
def getRecommendedStorageTier : Option String → Option String :=
  recommendFrom STORAGE_TIER_DOWNGRADE_TARGET

/-- `getRecommendedSqlSku` from savings.ts. -/
def getRecommendedSqlSku : Option String → Option String :=
  recommendFrom SQL_DOWNSIZE_TARGET

/-- `getRecommendedAppServiceSku` from savings.ts. -/
def getRecommendedAppServiceSku : Option String → Option String :=
  recommendFrom APP_SERVICE_DOWNGRADE_TARGET

/-- Fixed-price estimator shape shared by the VM, SQL and App Service
estimators: `if (!current || !target) return 0; return
diffPositive(current, target)`, where the JS falsy test on a looked-up
price is true when the tier is absent from the map or priced at 0. -/
def estimateFixed (pricing : String → Option ℚ) (cur tgt : String) : ℚ :=
  match pricing cur, pricing tgt with
  | some c, some t => if c = 0 ∨ t = 0 then 0 else diffPositive c t
  | _, _ => 0

/-- Per-GB estimator shape shared by the disk and storage estimators:
additionally returns 0 when the size is missing, 0 (JS falsy) or
non-positive. -/
def estimatePerGb (pricing : String → Option ℚ) (cur tgt : String)
    (sizeGb : Option ℚ) : ℚ :=
  match pricing cur, pricing tgt, sizeGb with
  | some c, some t, some s =>
    if c = 0 ∨ t = 0 ∨ s ≤ 0 then 0 else diffPositive (c * s) (t * s)
  | _, _, _ => 0

/-- `estimateVmResizeSavings` from savings.ts. -/
def estimateVmResizeSavings : String → String → ℚ :=
  estimateFixed VM_SKU_PRICING

/-- `estimateDiskSkuSavings` from savings.ts. -/
def estimateDiskSkuSavings : String → String → Option ℚ → ℚ :=
  estimatePerGb DISK_SKU_PRICING_PER_GB

/-- `estimateStorageTierSavings` from savings.ts. -/
def estimateStorageTierSavings : String → String → Option ℚ → ℚ :=
  estimatePerGb STORAGE_TIER_PRICING_PER_GB

/-- `estimateSqlSkuSavings` from savings.ts. -/
def estimateSqlSkuSavings : String → String → ℚ :=
  estimateFixed SQL_SKU_PRICING

/-- `estimateAppServicePlanSavings` from savings.ts. -/
def estimateAppServicePlanSavings : String → String → ℚ :=
  estimateFixed APP_SERVICE_SKU_PRICING

/-- `PUBLIC_IP_MONTHLY_COST` from savings.ts. -/
def PUBLIC_IP_MONTHLY_COST : ℚ := 3

/-- `LOAD_BALANCER_MONTHLY_COST` from savings.ts. -/
def LOAD_BALANCER_MONTHLY_COST : ℚ := 18

end Savings

namespace Rules

/-- A JSON scalar as stored in the free-form metric/detail maps: a
string, a finite number (modelled as a rational) or null. -/
inductive JVal
  | s (v : String)
  | n (v : ℚ)
  | nullv
deriving DecidableEq

/-- Model of `String.prototype.trim`: drop whitespace from both ends. -/
def jsTrim (v : String) : String :=
  ⟨((v.data.dropWhile Char.isWhitespace).reverse.dropWhile
      Char.isWhitespace).reverse⟩

/-- `readString` from src/lib/rules/rules-azure.ts applied to a string
value: trim, and require a non-empty remainder. -/
def readStringS (v : String) : Option String :=
  let t := jsTrim v
  if t == "" then none else some t

/-- `readString` applied to a JSON scalar: only strings pass. -/
def readStringJ : JVal → Option String
  | .s v => readStringS v
  | _ => none

/-- Decimal digits to a natural number. -/
def digitsToNat (l : List Char) : Nat :=
  l.foldl (fun n c => 10 * n + (c.toNat - '0'.toNat)) 0

/-- Model of `Number.parseFloat` restricted to plain decimal literals:
an optional sign, an integer part and an optional fraction, reading the
longest such leading portion; anything without a leading digit pattern
is NaN and yields none.  (Exponents, leading whitespace and `Infinity`
are not modelled; no claim depends on them.) -/
def parseFloatQ (v : String) : Option ℚ :=
  let (neg, rest) :=
    match v.data with
    | '-' :: t => (true, t)
    | '+' :: t => (false, t)
    | l => (false, l)
  let ip := rest.takeWhile Char.isDigit
  let rest2 := rest.drop ip.length
  let fp :=
    match rest2 with
    | '.' :: t => t.takeWhile Char.isDigit
    | _ => []
  if ip.isEmpty && fp.isEmpty then none
  else
    let mag : ℚ := (digitsToNat ip : ℚ) + (digitsToNat fp : ℚ) / (10 ^ fp.length)
    some (if neg then -mag else mag)

/-- `readNumber` from rules-azure.ts: a finite number passes unchanged
(rationals are always finite), a string is parsed with `parseFloat`. -/
def readNumberJ : JVal → Option ℚ
  | .n v => some v
  | .s v => parseFloatQ v
  | .nullv => none

/-- The `CloudResource` rows the rules read, with the fields they use.
`tags` is the string→string tag map and `metrics` the free-form metric
map; both are nullable JSON columns (`jsonObject` returns null on a
non-object), hence the `Option`. -/
structure CloudResourceM where
  resourceId : String
  name : String
  type : String
  organizationId : String
  subscriptionId : String
  tags : Option (List (String × String))
  metrics : Option (List (String × JVal))
  costMonthly : Option ℚ
deriving DecidableEq

/-- `getResourceTag` from rules-azure.ts: probe the tag keys in priority
order, returning the first trimmed non-empty string value. -/
def getResourceTag (r : CloudResourceM) (keys : List String) : Option String :=
  match r.tags with
  | none => none
  | some tags => keys.findSome? fun k => (alookup tags k).bind readStringS

/-- `getResourceMetric` from rules-azure.ts: probe the metric keys in
priority order, returning the first value `readNumber` accepts. -/
def getResourceMetric (r : CloudResourceM) (keys : List String) : Option ℚ :=
  match r.metrics with
  | none => none
  | some metrics => keys.findSome? fun k => (alookup metrics k).bind readNumberJ

/-- Last-binding-wins lookup in a threshold map: the JS object produced
by spreads keeps the value written last for each key. -/
def tlookup (l : List (String × ℚ)) (k : String) : Option ℚ :=
  l.foldl (fun acc p => if p.1 == k then some p.2 else acc) none

/-- `mergeThresholds` from rules-azure.ts: `{...defaults, ...overrides}`,
with later entries overriding earlier ones under `tlookup`. -/
def mergeThresholds (defaults : List (String × ℚ))
    (overrides : Option (List (String × ℚ))) : List (String × ℚ) :=
  defaults ++ overrides.getD []

/-- `RuleConfig` from rules-azure.ts. -/
structure RuleConfig where
  enabled : Bool
  thresholds : List (String × ℚ)
deriving DecidableEq

/-- Integer part and one rounded decimal, the rendering `toFixed(1)`
produces for the non-negative percentages the rules print. -/
def toFixed1 (q : ℚ) : String :=
  let n : ℤ := round (q * 10)
  toString (n / 10) ++ "." ++ toString (n % 10).natAbs

/-- `describePercentage` from rules-azure.ts. -/
def describePercentage (value : Option ℚ) : String :=
  match value with
  | none => "unknown"
  | some v => toFixed1 v ++ "%"

/-- `RecommendationPayload` from src/lib/rules/types.ts, with the details
object as a key→scalar list. -/
structure RecommendationPayload where
  title : String
  description : String
  impactMonthly : ℚ
  confidence : ℚ
  details : List (String × JVal)
deriving DecidableEq

/-- Loop body of the `azure.vm.rightsize` executor for one VM row, with
the thresholds already extracted and the Azure metric call passed as
`getVmMetrics` (an exception is the `.error` case, recovered by falling
back to the cached resource metrics). -/
def vmRightsizeProcess (getVmMetrics : String → ℚ → Except Unit (Option ℚ))
    (lookbackDays minImpact cpuLimit : ℚ) (vm : CloudResourceM) :
    Option RecommendationPayload :=
  let metricsObject := vm.metrics
  let currentSku? :=
    (getResourceTag vm ["azure:vmSize", "vmSize", "VMSize", "sku", "skuName"]).orElse
      fun _ => (metricsObject.bind fun m => alookup m "vmSize").bind readStringJ
  match currentSku? with
  | none => none
  | some currentSku =>
    match Savings.getRecommendedVmSku (some currentSku) with
    | none => none
    | some targetSku =>
      let cpuAverage? :=
        match getVmMetrics vm.resourceId lookbackDays with
        | .ok m => m
        | .error _ => getResourceMetric vm ["cpuAverage", "avgCpu", "p95Cpu"]
      match cpuAverage? with
      | none => none
      | some cpuAverage =>
        if cpuAverage > cpuLimit then none
        else
          let impact := Savings.estimateVmResizeSavings currentSku targetSku
          if impact < minImpact then none
          else
            some
              { title := "Right-size " ++ vm.name,
                description := "Average CPU usage for " ++ vm.name ++ " was " ++
                  describePercentage (some cpuAverage) ++ " over the last " ++
                  toString lookbackDays ++
                  " days. Downgrading to " ++ targetSku ++
                  " can cut costs while staying within utilization thresholds.",
                impactMonthly := impact,
                confidence := 0.6,
                details :=
                  [ ("resourceId", .s vm.resourceId),
                    ("subscriptionId", .s vm.subscriptionId),
                    ("currentSku", .s currentSku),
                    ("targetSku", .s targetSku),
                    ("cpuAverage", .n cpuAverage),
                    ("lookbackDays", .n lookbackDays),
                    ("action", .s "resizeVm") ] }

/-- Executor of `azure.vm.rightsize` from rules-azure.ts, with the
resource table and the Azure metrics call passed explicitly. -/
def vmRightsizeRun (getVmMetrics : String → ℚ → Except Unit (Option ℚ))
    (orgId : String) (resources : List CloudResourceM) (config : RuleConfig) :
    List RecommendationPayload :=
  let thresholds := mergeThresholds
    [("cpuPercent", 20), ("lookbackDays", 30), ("minImpact", 25)]
    (some config.thresholds)
  let vms := resources.filter fun r =>
    r.organizationId == orgId && r.type == "Microsoft.Compute/virtualMachines"
  let lookbackDays := (tlookup thresholds "lookbackDays").getD 30
  let minImpact := (tlookup thresholds "minImpact").getD 25
  let cpuLimit := (tlookup thresholds "cpuPercent").getD 20
  vms.filterMap (vmRightsizeProcess getVmMetrics lookbackDays minImpact cpuLimit)

/-- An element of the Azure `listUnattachedDisks` response, with the
fields the rule reads (`sku?.name`, `diskSizeGb`, `timeCreated`). -/
structure AzureDisk where
  id : String
  skuName : Option String
  diskSizeGb : Option ℚ
  timeCreated : Option String
deriving DecidableEq

/-- `parseIsoDate` from rules-azure.ts, with `Date.parse` passed as the
`dateParse` environment function (millisecond timestamp on success). -/
def parseIsoDate (dateParse : String → Option ℤ) :
    Option String → Option ℤ
  | none => none
  | some v => dateParse v

/-- Loop body of the `azure.disk.unattached` executor for one disk, with
the thresholds already extracted: `resources` is the org's disk table
(the `loadResourceMap` source of `diskMap`), `now` the evaluation-time
clock in milliseconds and `dateParse` the `Date.parse` environment. -/
def unattachedDiskProcess (resources : List CloudResourceM) (orgId : String)
    (now : ℤ) (dateParse : String → Option ℤ) (minAgeDays minImpact : ℚ)
    (disk : AzureDisk) : Option RecommendationPayload :=
  let resource? := (resources.filter fun r =>
    r.organizationId == orgId && r.type == "Microsoft.Compute/disks").find?
      fun r => r.resourceId == disk.id
  match resource? with
  | none => none
  | some resource =>
    let skuName := ((disk.skuName).bind readStringS).orElse fun _ =>
      getResourceTag resource ["sku", "skuName", "skuTier", "storageAccountType"]
    let targetSku := Savings.getRecommendedDiskSku (some (skuName.getD ""))
    let resourceMetrics := resource.metrics
    let resourceTags := resource.tags
    let sizeGb := (disk.diskSizeGb).orElse fun _ =>
      ((resourceMetrics.bind fun m => alookup m "sizeGb").bind readNumberJ).orElse
        fun _ => (resourceTags.bind fun t => alookup t "diskSizeGb").bind parseFloatQ
    let createdAt := parseIsoDate dateParse disk.timeCreated
    let ageOk :=
      match createdAt with
      | some ts => decide ((((now - ts).fdiv 86400000 : ℤ) : ℚ) ≥ minAgeDays)
      | none => true
    if !ageOk then none
    else
      let impact :=
        match skuName, targetSku with
        | some sk, some tg => Savings.estimateDiskSkuSavings sk tg sizeGb
        | _, _ => resource.costMonthly.getD 0
      if impact < minImpact then none
      else
        some
          { title := "Delete unattached disk " ++ resource.name,
            description := resource.name ++
              " is unattached and has been idle for more than " ++
              toString minAgeDays ++
              " days. Removing or moving it to a lower tier can save costs immediately.",
            impactMonthly := impact,
            confidence := 0.7,
            details :=
              [ ("resourceId", .s resource.resourceId),
                ("subscriptionId", .s resource.subscriptionId),
                ("sku", match skuName with | some sk => .s sk | none => .nullv),
                ("sizeGb", match sizeGb with | some s => .n s | none => .nullv),
                ("action", .s "deleteDisk") ] }

/-- Executor of `azure.disk.unattached` from rules-azure.ts. -/
def unattachedDiskRun (resources : List CloudResourceM) (orgId : String)
    (now : ℤ) (dateParse : String → Option ℤ) (disks : List AzureDisk)
    (config : RuleConfig) : List RecommendationPayload :=
  let thresholds := mergeThresholds [("minAgeDays", 7), ("minImpact", 10)]
    (some config.thresholds)
  let minAgeDays := (tlookup thresholds "minAgeDays").getD 7
  let minImpact := (tlookup thresholds "minImpact").getD 10
  disks.filterMap
    (unattachedDiskProcess resources orgId now dateParse minAgeDays minImpact)

end Rules

namespace Registry

/-- `RuleOverride` from src/lib/rules/registry.ts. -/
structure RuleOverride where
  enabled : Option Bool
  thresholds : Option (List (String × ℚ))
deriving DecidableEq

/-- `mergeConfig` from registry.ts: absent override leaves the default
untouched; otherwise `enabled` falls back through `??` and the threshold
maps are spread with the override last. -/
def mergeConfig (defaultConfig : Rules.RuleConfig) (override : Option RuleOverride) :
    Rules.RuleConfig :=
  match override with
  | none => defaultConfig
  | some ov =>
    { enabled := ov.enabled.getD defaultConfig.enabled,
      thresholds := defaultConfig.thresholds ++ ov.thresholds.getD [] }

/-- A catalog entry as the registry sees it: id, label and default
config (the executor closure is bound separately and plays no part in
rule-set resolution). -/
structure RuleDefM where
  id : String
  label : String
  defaultConfig : Rules.RuleConfig
deriving DecidableEq

/-- An active rule as produced by `bindRule`: the definition's id and
label with the merged config closed over. -/
structure ActiveRule where
  id : String
  label : String
  config : Rules.RuleConfig
deriving DecidableEq

/-- The loop of `getActiveRulesForOrg` from registry.ts: for every
catalog entry merge the default config with the organization's override
and keep the rule only when the merged `enabled` flag is true. -/
def getActiveRulesForOrg (defs : List RuleDefM)
    (overrides : List (String × RuleOverride)) : List ActiveRule :=
  match defs with
  | [] => []
  | d :: rest =>
    let mergedConfig := mergeConfig d.defaultConfig (alookup overrides d.id)
    if !mergedConfig.enabled then getActiveRulesForOrg rest overrides
    else ⟨d.id, d.label, mergedConfig⟩ :: getActiveRulesForOrg rest overrides

end Registry

namespace Engine

/-- A persisted `Recommendation` row with the columns the engine and the
PR orchestrator read and write. -/
structure RecommendationRec where
  id : String
  organizationId : String
  subscriptionId : String
  resourceId : String
  ruleId : String
  title : String
  description : String
  impactMonthly : ℚ
  confidence : ℚ
  status : String
  details : List (String × Rules.JVal)
deriving DecidableEq

/-- The slice of the database `upsertRecommendation` touches: the
recommendation table and the cloud-resource table it consults through
`ensureSubscriptionId`. -/
structure Db where
  recs : List RecommendationRec
  resources : List Rules.CloudResourceM
deriving DecidableEq

/-- `typeof v === "string" ? v : null` on a details value. -/
def detailString (details : List (String × Rules.JVal)) (k : String) :
    Option String :=
  match alookup details k with
  | some (.s v) => some v
  | _ => none

/-- `ensureSubscriptionId` from src/lib/rules/engine.ts: the resource
row's subscription, or the empty string when the row is missing. -/
def ensureSubscriptionId (db : Db) (resourceId : String) : String :=
  (((db.resources.find? fun r => r.resourceId == resourceId).map
    fun r => r.subscriptionId)).getD ""

/-- The `subscriptionId` value `upsertRecommendation` computes before
touching the recommendation table: the payload's string value if
non-empty (JS falsy check), otherwise the resource row's. -/
def resolvedSubscription (db : Db) (p : Rules.RecommendationPayload)
    (resourceId : String) : String :=
  let fromDetails := (detailString p.details "subscriptionId").getD ""
  if fromDetails == "" then ensureSubscriptionId db resourceId else fromDetails

/-- The row `upsertRecommendation` creates when no recommendation with
the same (organization, rule, resource) key exists. -/
def createdRec (orgId ruleId newId resourceId subscriptionId : String)
    (p : Rules.RecommendationPayload) : RecommendationRec :=
  { id := newId,
    organizationId := orgId,
    subscriptionId := subscriptionId,
    resourceId := resourceId,
    ruleId := ruleId,
    title := p.title,
    description := p.description,
    impactMonthly := p.impactMonthly,
    confidence := p.confidence,
    status := "open",
    details := p.details }

/-- `upsertRecommendation` from engine.ts.  `newId` stands for the id
the database generates on create.  A payload without a string, non-empty
(JS falsy) `details.resourceId` is dropped.  On update, only the
descriptive columns are written; `status` is not among them, and
`subscriptionId` keeps the stored value only when the resolved new value
is empty (`subscriptionId || existing.subscriptionId`). -/
def upsertRecommendation (db : Db) (orgId ruleId newId : String)
    (p : Rules.RecommendationPayload) : Db :=
  match detailString p.details "resourceId" with
  | none => db
  | some resourceId =>
    if resourceId == "" then db
    else
      let subscriptionId := resolvedSubscription db p resourceId
      match db.recs.find? (fun r =>
          r.organizationId == orgId && r.ruleId == ruleId &&
            r.resourceId == resourceId) with
      | none =>
        { db with recs :=
            db.recs ++ [createdRec orgId ruleId newId resourceId subscriptionId p] }
      | some existing =>
        { db with recs := db.recs.map fun r =>
            if r.id == existing.id then
              { r with
                  title := p.title,
                  description := p.description,
                  impactMonthly := p.impactMonthly,
                  confidence := p.confidence,
                  details := p.details,
                  subscriptionId :=
                    if subscriptionId == "" then r.subscriptionId
                    else subscriptionId }
            else r }

/-- A rule as `runRulesForOrg` sees it: the executor either returns its
payload list or throws (`.error`). -/
structure MRule where
  id : String
  runResult : Except String (List Rules.RecommendationPayload)

/-- Observable events of one engine run, indexed by rule position and
payload position: invoking a rule's executor, the executor throwing, a
payload upsert being attempted, and an upsert throwing. -/
inductive EngineEvent
  | ruleInvoked (ruleIdx : Nat)
  | ruleFailed (ruleIdx : Nat)
  | upsertAttempted (ruleIdx payloadIdx : Nat)
  | upsertFailed (ruleIdx payloadIdx : Nat)
deriving DecidableEq

/-- The payload loop of `runRulesForOrg`: every payload of the rule is
attempted in order; a persistence failure (the `persistOk` oracle
answering false, standing for a thrown exception) is caught and logged,
and the loop continues. -/
def runPayloadLoop (persistOk : Nat → Nat → Bool) (ruleIdx : Nat) :
    Nat → List Rules.RecommendationPayload → List EngineEvent
  | _, [] => []
  | j, _ :: rest =>
    (EngineEvent.upsertAttempted ruleIdx j ::
      (if persistOk ruleIdx j then [] else [EngineEvent.upsertFailed ruleIdx j])) ++
      runPayloadLoop persistOk ruleIdx (j + 1) rest

/-- The rule loop of `runRulesForOrg` from engine.ts as an event trace:
each rule's executor is invoked in order; a throwing executor is caught,
logged and skipped (`continue`), and otherwise each returned payload is
attempted. -/
def runRulesLoop (persistOk : Nat → Nat → Bool) :
    Nat → List MRule → List EngineEvent
  | _, [] => []
  | i, r :: rest =>
    (EngineEvent.ruleInvoked i ::
      (match r.runResult with
       | .error _ => [EngineEvent.ruleFailed i]
       | .ok payloads => runPayloadLoop persistOk i 0 payloads)) ++
      runRulesLoop persistOk (i + 1) rest

/-- `runRulesForOrg` restricted to its rule/payload loop (connection
resolution and rule-set loading happen before the loop): the observable
trace of executor invocations and upsert attempts. -/
def runRulesForOrg (persistOk : Nat → Nat → Bool) (rules : List MRule) :
    List EngineEvent :=
  runRulesLoop persistOk 0 rules

end Engine

namespace Prs

/-- `ensureTrailingNewline` from src/lib/github/prs.ts. -/
def ensureTrailingNewline (value : String) : String :=
  if strEnds value "\n" then value else value ++ "\n"

/-- The per-recommendation marker `costops recommendation <id>` used by
`generateUpdatedContent`. -/
def marker (recId : String) : String :=
  "costops recommendation " ++ recId

/-- `formatTerraformComment` from prs.ts: the four `#` comment lines
joined by newlines, with a newline ensured at the end. -/
def formatTerraformComment (rec : Engine.RecommendationRec)
    (resourceName : String) : String :=
  ensureTrailingNewline
    ("# " ++ marker rec.id ++
      "\n# resource: " ++ resourceName ++
      "\n# title: " ++ rec.title ++
      "\n# impact (monthly): " ++ toString rec.impactMonthly)

/-- `formatBicepComment` from prs.ts: the same four lines in `//`
comment style. -/
def formatBicepComment (rec : Engine.RecommendationRec)
    (resourceName : String) : String :=
  ensureTrailingNewline
    ("// " ++ marker rec.id ++
      "\n// resource: " ++ resourceName ++
      "\n// title: " ++ rec.title ++
      "\n// impact (monthly): " ++ toString rec.impactMonthly)

/-- `applyArmMetadata` from prs.ts.  The try-block — `JSON.parse`, the
`metadata.costopsRecommendations` array update and `JSON.stringify` —
is the engine-provided `armTry` environment, returning none exactly when
`JSON.parse` throws on the input; the catch branch is embedded exactly:
the raw text with a trailing newline ensured, followed by the two `//`
fallback lines (the marker line and the title line) and a newline. -/
def applyArmMetadata (armTry : String → Option String) (current : String)
    (rec : Engine.RecommendationRec) : String :=
  match armTry current with
  | some updated => updated
  | none =>
    ensureTrailingNewline current ++
      ("// " ++ marker rec.id ++ "\n// title: " ++ rec.title) ++ "\n"

/-- `generateUpdatedContent` from prs.ts. -/
def generateUpdatedContent (armTry : String → Option String)
    (format : RepoMapper.IaCFileFormat) (currentContent : String)
    (rec : Engine.RecommendationRec) (resourceName : String) : String :=
  match format with
  | .terraform =>
    if jsIncludes currentContent (marker rec.id) then currentContent
    else ensureTrailingNewline currentContent ++ formatTerraformComment rec resourceName
  | .bicep =>
    if jsIncludes currentContent (marker rec.id) then currentContent
    else ensureTrailingNewline currentContent ++ formatBicepComment rec resourceName
  | .arm => applyArmMetadata armTry currentContent rec

end Prs

namespace Savings

theorem diffPositive_nonneg (c t : ℚ) : 0 ≤ diffPositive c t := by
  by_cases h : c - t > 0 <;> simp [diffPositive, h]
  linarith

theorem estimateFixed_nonneg (pr : String → Option ℚ) (c t : String) :
    0 ≤ estimateFixed pr c t := by
  unfold estimateFixed
  rcases pr c with _ | x <;> rcases pr t with _ | y <;> simp
  split
  · exact le_refl 0
  · exact diffPositive_nonneg x y

theorem estimateFixed_zero (pr : String → Option ℚ) (c t : String)
    (h : pr c = none ∨ pr t = none) : estimateFixed pr c t = 0 := by
  unfold estimateFixed
  rcases h with h | h <;> rw [h] <;> rcases pr c with _ | x <;>
    rcases pr t with _ | y <;> rfl

theorem estimatePerGb_nonneg (pr : String → Option ℚ) (c t : String)
    (s : Option ℚ) : 0 ≤ estimatePerGb pr c t s := by
  unfold estimatePerGb
  rcases pr c with _ | x <;> rcases pr t with _ | y <;> rcases s with _ | z <;> simp
  split
  · exact le_refl 0
  · exact diffPositive_nonneg _ _

theorem estimatePerGb_zero_none (pr : String → Option ℚ) (c t : String)
    (s : Option ℚ) (h : pr c = none ∨ pr t = none) :
    estimatePerGb pr c t s = 0 := by
  unfold estimatePerGb
  rcases h with h | h <;> rw [h] <;> rcases pr c with _ | x <;>
    rcases pr t with _ | y <;> rcases s with _ | z <;> rfl

theorem estimatePerGb_zero_size (pr : String → Option ℚ) (c t : String)
    (s : Option ℚ) (h : ∀ q, s = some q → q ≤ 0) :
    estimatePerGb pr c t s = 0 := by
  unfold estimatePerGb
  rcases hs : s with _ | z <;> rcases pr c with _ | x <;> rcases pr t with _ | y
  any_goals rfl
  exact if_pos (Or.inr (Or.inr (h z hs)))

end Savings

/-- C9: for every savings-estimator dimension (VM, disk, storage tier,
SQL, App Service plan) and all tier strings (and size where applicable),
the estimated savings is non-negative, and it is 0 whenever either tier
is missing from the dimension's pricing map or, for the per-GB
dimensions, the size is missing or non-positive. -/
theorem savings_estimators_nonneg_and_zero (cur tgt : String) (size : Option ℚ) :
    (0 ≤ Savings.estimateVmResizeSavings cur tgt ∧
      ((Savings.VM_SKU_PRICING cur = none ∨ Savings.VM_SKU_PRICING tgt = none) →
        Savings.estimateVmResizeSavings cur tgt = 0)) ∧
    (0 ≤ Savings.estimateDiskSkuSavings cur tgt size ∧
      ((Savings.DISK_SKU_PRICING_PER_GB cur = none ∨
          Savings.DISK_SKU_PRICING_PER_GB tgt = none) →
        Savings.estimateDiskSkuSavings cur tgt size = 0) ∧
      ((∀ q, size = some q → q ≤ 0) →
        Savings.estimateDiskSkuSavings cur tgt size = 0)) ∧
    (0 ≤ Savings.estimateStorageTierSavings cur tgt size ∧
      ((Savings.STORAGE_TIER_PRICING_PER_GB cur = none ∨
          Savings.STORAGE_TIER_PRICING_PER_GB tgt = none) →
        Savings.estimateStorageTierSavings cur tgt size = 0) ∧
      ((∀ q, size = some q → q ≤ 0) →
        Savings.estimateStorageTierSavings cur tgt size = 0)) ∧
    (0 ≤ Savings.estimateSqlSkuSavings cur tgt ∧
      ((Savings.SQL_SKU_PRICING cur = none ∨ Savings.SQL_SKU_PRICING tgt = none) →
        Savings.estimateSqlSkuSavings cur tgt = 0)) ∧
    (0 ≤ Savings.estimateAppServicePlanSavings cur tgt ∧
      ((Savings.APP_SERVICE_SKU_PRICING cur = none ∨
          Savings.APP_SERVICE_SKU_PRICING tgt = none) →
        Savings.estimateAppServicePlanSavings cur tgt = 0)) :=
  ⟨⟨Savings.estimateFixed_nonneg _ cur tgt, Savings.estimateFixed_zero _ cur tgt⟩,
   ⟨Savings.estimatePerGb_nonneg _ cur tgt size,
     Savings.estimatePerGb_zero_none _ cur tgt size,
     Savings.estimatePerGb_zero_size _ cur tgt size⟩,
   ⟨Savings.estimatePerGb_nonneg _ cur tgt size,
     Savings.estimatePerGb_zero_none _ cur tgt size,
     Savings.estimatePerGb_zero_size _ cur tgt size⟩,
   ⟨Savings.estimateFixed_nonneg _ cur tgt, Savings.estimateFixed_zero _ cur tgt⟩,
   ⟨Savings.estimateFixed_nonneg _ cur tgt, Savings.estimateFixed_zero _ cur tgt⟩⟩

/-- Witness for C9 at concrete tiers: an unknown VM tier estimates 0,
and a disk estimate with a missing size is 0, both non-negative. -/
theorem savings_estimators_nonneg_and_zero_witness :
    (0 ≤ Savings.estimateVmResizeSavings "Unknown_SKU" "Standard_D4s_v3" ∧
      Savings.estimateVmResizeSavings "Unknown_SKU" "Standard_D4s_v3" = 0) ∧
    Savings.estimateDiskSkuSavings "Premium_LRS" "StandardSSD_LRS" none = 0 :=
  ⟨⟨(savings_estimators_nonneg_and_zero "Unknown_SKU" "Standard_D4s_v3" none).1.1,
    (savings_estimators_nonneg_and_zero "Unknown_SKU" "Standard_D4s_v3" none).1.2
      (Or.inl (by decide))⟩,
   (savings_estimators_nonneg_and_zero "Premium_LRS" "StandardSSD_LRS" none).2.1.2.2
      (fun q h => by cases h)⟩

/-- The VM of end-to-end scenario 1: type `virtualMachines`, tagged
`vmSize=Standard_D8s_v3`. -/
def scenario1Vm : Rules.CloudResourceM :=
  { resourceId := "vm-1", name := "vm-1",
    type := "Microsoft.Compute/virtualMachines", organizationId := "org-1",
    subscriptionId := "sub-1", tags := some [("vmSize", "Standard_D8s_v3")],
    metrics := none, costMonthly := none }

/-- The default `azure.vm.rightsize` configuration: `cpuPercent=20`,
`lookbackDays=30`, `minImpact=25`. -/
def scenario1Config : Rules.RuleConfig :=
  { enabled := true,
    thresholds := [("cpuPercent", 20), ("lookbackDays", 30), ("minImpact", 25)] }

/-- C5: a VM of the virtual-machine type with tag
`vmSize=Standard_D8s_v3`, resolved CPU average 12% over the 30-day
lookback, and configuration `cpuPercent=20`, `minImpact=25`, makes
`azure.vm.rightsize` emit exactly one payload, with
`details.targetSku = "Standard_D4s_v3"` and `impactMonthly = 240`
(the pricing difference 480 - 240). -/
theorem vm_rightsize_scenario1 :
    (Rules.vmRightsizeRun (fun _ _ => .ok (some 12)) "org-1" [scenario1Vm]
        scenario1Config).length = 1 ∧
    ((Rules.vmRightsizeRun (fun _ _ => .ok (some 12)) "org-1" [scenario1Vm]
        scenario1Config).head?.map (fun p => p.impactMonthly)) = some 240 ∧
    ((Rules.vmRightsizeRun (fun _ _ => .ok (some 12)) "org-1" [scenario1Vm]
        scenario1Config).head?.bind (fun p => alookup p.details "targetSku")) =
      some (Rules.JVal.s "Standard_D4s_v3") := by
  refine ⟨?_, ?_, ?_⟩ <;> with_unfolding_all decide

namespace Rules

theorem tlookup_step (l : List (String × ℚ)) (acc : Option ℚ) (k : String) :
    l.foldl (fun a p => if p.1 == k then some p.2 else a) acc =
      (tlookup l k).orElse fun _ => acc := by
  induction l generalizing acc with
  | nil => rfl
  | cons p t ih =>
    have hcons : tlookup (p :: t) k =
        (tlookup t k).orElse fun _ => if p.1 == k then some p.2 else none := by
      show List.foldl _ _ (p :: t) = _
      rw [List.foldl_cons, ih]
    rw [List.foldl_cons, ih, hcons]
    cases htl : tlookup t k with
    | some v => rfl
    | none =>
      by_cases h : p.1 == k <;> simp [h, Option.orElse]

theorem tlookup_append (a b : List (String × ℚ)) (k : String) :
    tlookup (a ++ b) k = (tlookup b k).orElse fun _ => tlookup a k := by
  show List.foldl _ _ (a ++ b) = _
  rw [List.foldl_append, tlookup_step]
  rfl

end Rules

/-- C6: rule-set resolution.  The merged configuration has
`enabled = override.enabled ?? default.enabled` and thresholds equal to
the default thresholds overlaid key-by-key with the override thresholds
(an absent override leaves the default untouched); the active rule set
is exactly the catalog filtered to entries whose merged `enabled` flag
is true, each bound to its merged config; and on the concrete instance
of the claim, default `{enabled: true, thresholds: {a: 10, b: 20}}`
with override `{thresholds: {a: 5}}` merges to
`{enabled: true, thresholds: {a: 5, b: 20}}`. -/
theorem registry_merge_and_active_rules (d : Rules.RuleConfig)
    (o : Registry.RuleOverride) (k : String) (defs : List Registry.RuleDefM)
    (overrides : List (String × Registry.RuleOverride)) :
    ((Registry.mergeConfig d (some o)).enabled = o.enabled.getD d.enabled ∧
      Rules.tlookup (Registry.mergeConfig d (some o)).thresholds k =
        ((Rules.tlookup (o.thresholds.getD []) k).orElse fun _ =>
          Rules.tlookup d.thresholds k) ∧
      Registry.mergeConfig d none = d) ∧
    Registry.getActiveRulesForOrg defs overrides =
      defs.filterMap (fun df =>
        let m := Registry.mergeConfig df.defaultConfig (alookup overrides df.id)
        if m.enabled then some ⟨df.id, df.label, m⟩ else none) ∧
    ((Registry.mergeConfig ⟨true, [("a", 10), ("b", 20)]⟩
        (some ⟨none, some [("a", 5)]⟩)).enabled = true ∧
      Rules.tlookup (Registry.mergeConfig ⟨true, [("a", 10), ("b", 20)]⟩
        (some ⟨none, some [("a", 5)]⟩)).thresholds "a" = some 5 ∧
      Rules.tlookup (Registry.mergeConfig ⟨true, [("a", 10), ("b", 20)]⟩
        (some ⟨none, some [("a", 5)]⟩)).thresholds "b" = some 20) := by
  refine ⟨⟨rfl, ?_, rfl⟩, ?_, ?_, ?_, ?_⟩
  · exact Rules.tlookup_append d.thresholds (o.thresholds.getD []) k
  · induction defs with
    | nil => rfl
    | cons df rest ih =>
      by_cases h : (Registry.mergeConfig df.defaultConfig (alookup overrides df.id)).enabled <;>
        simp [Registry.getActiveRulesForOrg, h, ih]
  · with_unfolding_all decide
  · with_unfolding_all decide
  · with_unfolding_all decide

namespace Engine

theorem runPayloadLoop_attempt_mem (persistOk : Nat → Nat → Bool) (ri : Nat)
    (ps : List Rules.RecommendationPayload) :
    ∀ (t j : Nat) (p : Rules.RecommendationPayload), ps.get? j = some p →
      EngineEvent.upsertAttempted ri (t + j) ∈ runPayloadLoop persistOk ri t ps := by
  induction ps with
  | nil => intro t j p h; cases h
  | cons q qs ih =>
    intro t j p h
    cases j with
    | zero =>
      simp [runPayloadLoop]
    | succ j' =>
      have heq : t + (j' + 1) = (t + 1) + j' := by omega
      rw [heq]
      have hmem := ih (t + 1) j' p (by simpa using h)
      unfold runPayloadLoop
      exact List.mem_append_right _ hmem

theorem runRulesLoop_invoked_mem (persistOk : Nat → Nat → Bool)
    (rules : List MRule) :
    ∀ (s i : Nat) (r : MRule), rules.get? i = some r →
      EngineEvent.ruleInvoked (s + i) ∈ runRulesLoop persistOk s rules := by
  induction rules with
  | nil => intro s i r h; cases h
  | cons q qs ih =>
    intro s i r h
    cases i with
    | zero =>
      simp [runRulesLoop]
    | succ i' =>
      have heq : s + (i' + 1) = (s + 1) + i' := by omega
      rw [heq]
      have hmem := ih (s + 1) i' r (by simpa using h)
      unfold runRulesLoop
      exact List.mem_append_right _ hmem

theorem runRulesLoop_attempt_mem (persistOk : Nat → Nat → Bool)
    (rules : List MRule) :
    ∀ (s i : Nat) (r : MRule) (ps : List Rules.RecommendationPayload)
      (j : Nat) (p : Rules.RecommendationPayload),
      rules.get? i = some r → r.runResult = .ok ps → ps.get? j = some p →
      EngineEvent.upsertAttempted (s + i) j ∈ runRulesLoop persistOk s rules := by
  induction rules with
  | nil => intro s i r ps j p h; cases h
  | cons q qs ih =>
    intro s i r ps j p h hok hj
    cases i with
    | zero =>
      have hq : q = r := by simpa using h
      subst hq
      unfold runRulesLoop
      rw [hok]
      refine List.mem_append_left _ (List.mem_cons_of_mem _ ?_)
      simpa using runPayloadLoop_attempt_mem persistOk (s + 0) ps 0 j p hj
    | succ i' =>
      have heq : s + (i' + 1) = (s + 1) + i' := by omega
      rw [heq]
      have hmem := ih (s + 1) i' r ps j p (by simpa using h) hok hj
      unfold runRulesLoop
      exact List.mem_append_right _ hmem

end Engine

/-- C4: failure isolation in `runRulesForOrg`.  For every list of rules,
every pattern of executor results (including thrown exceptions) and
every pattern of persistence failures, each rule in the run has its
executor invoked, and for each rule whose executor returned payloads,
every one of its payloads has an upsert attempted — no earlier rule
failure or earlier payload-persistence failure prevents either. -/
theorem engine_failure_isolation (persistOk : Nat → Nat → Bool)
    (rules : List Engine.MRule) (i : Nat) (r : Engine.MRule)
    (h : rules.get? i = some r) :
    Engine.EngineEvent.ruleInvoked i ∈ Engine.runRulesForOrg persistOk rules ∧
    ∀ (ps : List Rules.RecommendationPayload) (j : Nat)
      (p : Rules.RecommendationPayload),
      r.runResult = .ok ps → ps.get? j = some p →
      Engine.EngineEvent.upsertAttempted i j ∈
        Engine.runRulesForOrg persistOk rules := by
  constructor
  · simpa using Engine.runRulesLoop_invoked_mem persistOk rules 0 i r h
  · intro ps j p hok hj
    simpa using Engine.runRulesLoop_attempt_mem persistOk rules 0 i r ps j p h hok hj

/-- A concrete payload for the C4 witness run. -/
def witnessPayload : Rules.RecommendationPayload :=
  { title := "t", description := "d", impactMonthly := 1, confidence := 1,
    details := [("resourceId", .s "res-1")] }

/-- A concrete two-rule run for the C4 witness: the first rule's
executor throws and every persistence attempt fails. -/
def witnessRules : List Engine.MRule :=
  [ { id := "azure.vm.rightsize", runResult := .error "boom" },
    { id := "azure.disk.unattached", runResult := .ok [witnessPayload] } ]

/-- Witness for C4: in a run whose first rule throws and whose every
upsert fails, the second rule is still invoked and its payload still has
an upsert attempted. -/
theorem engine_failure_isolation_witness :
    Engine.EngineEvent.ruleInvoked 1 ∈
      Engine.runRulesForOrg (fun _ _ => false) witnessRules ∧
    Engine.EngineEvent.upsertAttempted 1 0 ∈
      Engine.runRulesForOrg (fun _ _ => false) witnessRules :=
  ⟨(engine_failure_isolation (fun _ _ => false) witnessRules 1
      { id := "azure.disk.unattached", runResult := .ok [witnessPayload] } rfl).1,
   (engine_failure_isolation (fun _ _ => false) witnessRules 1
      { id := "azure.disk.unattached", runResult := .ok [witnessPayload] } rfl).2
     [witnessPayload] 0 witnessPayload rfl rfl⟩

/-- An existing recommendation with a non-empty stored subscription and
an externally-set `in_pr` status, for C3. -/
def c3existing : Engine.RecommendationRec :=
  { id := "r1", organizationId := "o", subscriptionId := "sub-old",
    resourceId := "res-1", ruleId := "rule-1", title := "t0",
    description := "d0", impactMonthly := 10, confidence := 1/2,
    status := "in_pr", details := [] }

/-- The database state holding only `c3existing`. -/
def c3db : Engine.Db := { recs := [c3existing], resources := [] }

/-- A fresh payload for the same (org, rule, resource) key carrying a
different, non-empty `subscriptionId`. -/
def c3payload : Rules.RecommendationPayload :=
  { title := "t1", description := "d1", impactMonthly := 20, confidence := 3/5,
    details := [("resourceId", .s "res-1"), ("subscriptionId", .s "sub-new")] }

/-- Counterexample to C3 as stated: the stored recommendation's
subscription was the non-empty `"sub-old"`, yet after the upsert it is
`"sub-new"` — the code replaces a non-empty stored `subscriptionId`
whenever the resolved payload value is non-empty, not only when the
stored value was previously empty. -/
theorem upsert_overwrites_nonempty_subscription :
    ((Engine.upsertRecommendation c3db "o" "rule-1" "r2" c3payload).recs.map
      (fun r => r.subscriptionId)) = ["sub-new"] ∧
    (c3db.recs.map fun r => r.subscriptionId) = ["sub-old"] ∧
    (c3db.recs.map fun r => r.status) = ["in_pr"] ∧
    ("sub-old" : String) ≠ "" := by
  refine ⟨?_, ?_, ?_, ?_⟩ <;> with_unfolding_all decide

/-- C3 (amended): on an upsert whose payload carries a usable
`resourceId`, when a recommendation with the same (organization, rule,
resource) key exists, only the descriptive fields title, description,
impactMonthly, confidence, details and subscriptionId are rewritten —
the subscriptionId taking the resolved payload value when that value is
non-empty and keeping the stored value otherwise — while `status` (in
particular a previously-set `in_pr`), the record identity and every
other record are left unchanged; when no such recommendation exists,
the table is extended with exactly one record whose status is `open`. -/
theorem upsert_descriptive_update_frame (db : Engine.Db)
    (orgId ruleId newId : String) (p : Rules.RecommendationPayload)
    (rid : String)
    (hrid : Engine.detailString p.details "resourceId" = some rid)
    (hne : rid ≠ "") :
    (∀ ex, db.recs.find? (fun r =>
        r.organizationId == orgId && r.ruleId == ruleId && r.resourceId == rid) =
          some ex →
      ((Engine.upsertRecommendation db orgId ruleId newId p).recs.length =
          db.recs.length ∧
        ∀ r ∈ db.recs,
          (r.id ≠ ex.id →
            r ∈ (Engine.upsertRecommendation db orgId ruleId newId p).recs) ∧
          (r.id = ex.id →
            { r with
                title := p.title, description := p.description,
                impactMonthly := p.impactMonthly, confidence := p.confidence,
                details := p.details,
                subscriptionId :=
                  if Engine.resolvedSubscription db p rid == "" then
                    r.subscriptionId
                  else Engine.resolvedSubscription db p rid } ∈
              (Engine.upsertRecommendation db orgId ruleId newId p).recs))) ∧
    (db.recs.find? (fun r =>
        r.organizationId == orgId && r.ruleId == ruleId && r.resourceId == rid) =
          none →
      Engine.upsertRecommendation db orgId ruleId newId p =
        { db with recs := db.recs ++
            [Engine.createdRec orgId ruleId newId rid
              (Engine.resolvedSubscription db p rid) p] } ∧
      (Engine.createdRec orgId ruleId newId rid
        (Engine.resolvedSubscription db p rid) p).status = "open") := by
  have hbeq : (rid == "") = false := by simpa using hne
  constructor
  · intro ex hex
    simp only [Engine.upsertRecommendation, hrid, hbeq, Bool.false_eq_true,
      if_false, hex]
    refine ⟨by simp, ?_⟩
    intro r hr
    constructor
    · intro hid
      have hb : (r.id == ex.id) = false := by simpa using hid
      exact List.mem_map.mpr ⟨r, hr, by simp [hb]⟩
    · intro hid
      have hb : (r.id == ex.id) = true := by simpa using hid
      exact List.mem_map.mpr ⟨r, hr, by simp [hb]⟩
  · intro hnone
    simp only [Engine.upsertRecommendation, hrid, hbeq, Bool.false_eq_true,
      if_false, hnone]
    exact ⟨trivial, rfl⟩

/-- Witness for C3 (amended) at the concrete database `c3db`: the
updated record — new descriptive fields, resolved subscription, and the
stored `in_pr` status untouched — is in the table after the upsert. -/
theorem upsert_descriptive_update_frame_witness :
    { c3existing with
        title := "t1", description := "d1", impactMonthly := 20,
        confidence := 3/5,
        details := [("resourceId", .s "res-1"), ("subscriptionId", .s "sub-new")],
        subscriptionId :=
          if Engine.resolvedSubscription c3db c3payload "res-1" == "" then
            c3existing.subscriptionId
          else Engine.resolvedSubscription c3db c3payload "res-1" } ∈
      (Engine.upsertRecommendation c3db "o" "rule-1" "r2" c3payload).recs :=
  (((upsert_descriptive_update_frame c3db "o" "rule-1" "r2" c3payload "res-1"
      (by with_unfolding_all decide) (by decide)).1 c3existing
      (by with_unfolding_all decide)).2 c3existing
      (List.mem_singleton.mpr rfl)).2 rfl

theorem startsL_nil_needle (l : List Char) : startsL l [] = true := by
  cases l <;> rfl

theorem startsL_append (n t : List Char) : startsL (n ++ t) n = true := by
  induction n with
  | nil => exact startsL_nil_needle t
  | cons c cs ih => simp [startsL, ih]

theorem containsL_nil_needle (l : List Char) : containsL l [] = true := by
  cases l <;> simp [containsL, startsL]

theorem containsL_self_append (n t : List Char) : containsL (n ++ t) n = true := by
  cases n with
  | nil => exact containsL_nil_needle t
  | cons c cs =>
    have h := startsL_append (c :: cs) t
    simp only [List.cons_append] at h
    simp [containsL, h]

theorem containsL_append_left (x m n : List Char) (h : containsL m n = true) :
    containsL (x ++ m) n = true := by
  induction x with
  | nil => simpa using h
  | cons c cs ih => simp [containsL, ih]

namespace Prs

theorem terraform_comment_has_marker (pre : String) (r : Engine.RecommendationRec)
    (resName : String) :
    jsIncludes (pre ++ formatTerraformComment r resName) (marker r.id) = true := by
  unfold jsIncludes formatTerraformComment ensureTrailingNewline
  split <;>
    · simp only [String.data_append, List.append_assoc]
      exact containsL_append_left _ _ _ (containsL_append_left _ _ _
        (containsL_self_append _ _))

theorem bicep_comment_has_marker (pre : String) (r : Engine.RecommendationRec)
    (resName : String) :
    jsIncludes (pre ++ formatBicepComment r resName) (marker r.id) = true := by
  unfold jsIncludes formatBicepComment ensureTrailingNewline
  split <;>
    · simp only [String.data_append, List.append_assoc]
      exact containsL_append_left _ _ _ (containsL_append_left _ _ _
        (containsL_self_append _ _))

end Prs

/-- C7: terraform/bicep patch idempotence.  For content already carrying
the marker `costops recommendation <id>`, `generateUpdatedContent`
returns the content unchanged; and in all cases, applying the generator
twice with the same recommendation equals applying it once — the
annotation block is never duplicated. -/
theorem patch_generator_idempotent (armTry : String → Option String)
    (content : String) (r : Engine.RecommendationRec) (resName : String) :
    (jsIncludes content (Prs.marker r.id) = true →
      Prs.generateUpdatedContent armTry .terraform content r resName = content ∧
      Prs.generateUpdatedContent armTry .bicep content r resName = content) ∧
    Prs.generateUpdatedContent armTry .terraform
        (Prs.generateUpdatedContent armTry .terraform content r resName) r resName =
      Prs.generateUpdatedContent armTry .terraform content r resName ∧
    Prs.generateUpdatedContent armTry .bicep
        (Prs.generateUpdatedContent armTry .bicep content r resName) r resName =
      Prs.generateUpdatedContent armTry .bicep content r resName := by
  refine ⟨?_, ?_, ?_⟩
  · intro h
    constructor <;> simp [Prs.generateUpdatedContent, h]
  · by_cases h : jsIncludes content (Prs.marker r.id) = true
    · simp [Prs.generateUpdatedContent, h]
    · have hb : jsIncludes content (Prs.marker r.id) = false :=
        Bool.eq_false_iff.mpr h
      simp only [Prs.generateUpdatedContent, hb, Bool.false_eq_true, if_false]
      rw [Prs.terraform_comment_has_marker]
      simp
  · by_cases h : jsIncludes content (Prs.marker r.id) = true
    · simp [Prs.generateUpdatedContent, h]
    · have hb : jsIncludes content (Prs.marker r.id) = false :=
        Bool.eq_false_iff.mpr h
      simp only [Prs.generateUpdatedContent, hb, Bool.false_eq_true, if_false]
      rw [Prs.bicep_comment_has_marker]
      simp

/-- The recommendation used by the C7 witness. -/
def c7rec : Engine.RecommendationRec :=
  { id := "R1", organizationId := "o", subscriptionId := "s",
    resourceId := "res-1", ruleId := "rule-1", title := "t",
    description := "d", impactMonthly := 5, confidence := 1,
    status := "open", details := [] }

/-- Witness for C7: a concrete terraform file already carrying the
marker for recommendation `R1` passes through both comment-style
generators unchanged. -/
theorem patch_generator_idempotent_witness :
    Prs.generateUpdatedContent (fun _ => none) .terraform
      "# costops recommendation R1\n" c7rec "vm-1" =
        "# costops recommendation R1\n" ∧
    Prs.generateUpdatedContent (fun _ => none) .bicep
      "# costops recommendation R1\n" c7rec "vm-1" =
        "# costops recommendation R1\n" :=
  (patch_generator_idempotent (fun _ => none) "# costops recommendation R1\n"
    c7rec "vm-1").1 (by decide)

/-- Counterexample to C8 as stated: on the unparseable ARM content `"{"`
(on which `JSON.parse` throws, so the parse environment yields none),
the fallback block has only the marker line and the title line — it
contains no `resource:` line and no `impact (monthly):` line, so it does
not have the same shape as the four-line terraform comment block. -/
theorem arm_fallback_lacks_resource_and_impact_lines :
    Prs.applyArmMetadata (fun _ => none) "\x7b" c7rec =
      "\x7b\n// costops recommendation R1\n// title: t\n" ∧
    jsIncludes (Prs.applyArmMetadata (fun _ => none) "\x7b" c7rec)
      "resource:" = false ∧
    jsIncludes (Prs.applyArmMetadata (fun _ => none) "\x7b" c7rec)
      "impact (monthly)" = false := by
  refine ⟨?_, ?_, ?_⟩ <;> decide

/-- C8 (amended): for every ARM content on which `JSON.parse` fails, the
ARM patch generator does not fail: it returns the raw text (trailing
newline ensured) with a plain two-line `//` comment block appended —
the per-recommendation marker line plus the title line (without the
resource and monthly-impact lines of the terraform block) — so the
degraded result starts with the original text, contains the marker and
ends with a newline. -/
theorem arm_parse_failure_appends_fallback_comment
    (armTry : String → Option String) (current : String)
    (r : Engine.RecommendationRec) (h : armTry current = none) :
    Prs.applyArmMetadata armTry current r =
      Prs.ensureTrailingNewline current ++
        ("// " ++ Prs.marker r.id ++ "\n// title: " ++ r.title) ++ "\n" ∧
    jsIncludes (Prs.applyArmMetadata armTry current r) (Prs.marker r.id) = true ∧
    strStarts (Prs.applyArmMetadata armTry current r)
      (Prs.ensureTrailingNewline current) = true ∧
    strEnds (Prs.applyArmMetadata armTry current r) "\n" = true := by
  have heq : Prs.applyArmMetadata armTry current r =
      Prs.ensureTrailingNewline current ++
        ("// " ++ Prs.marker r.id ++ "\n// title: " ++ r.title) ++ "\n" := by
    simp [Prs.applyArmMetadata, h]
  refine ⟨heq, ?_, ?_, ?_⟩
  · rw [heq]
    unfold jsIncludes
    simp only [String.data_append, List.append_assoc]
    exact containsL_append_left _ _ _ (containsL_append_left _ _ _
      (containsL_self_append _ _))
  · rw [heq]
    unfold strStarts
    simp only [String.data_append, List.append_assoc]
    exact startsL_append _ _
  · rw [heq]
    unfold strEnds
    simp only [String.data_append, List.reverse_append]
    simp [startsL, startsL_nil_needle]

/-- Witness for C8 (amended) on the malformed document `"not json"`:
the generator returns the degraded comment-appended text. -/
theorem arm_parse_failure_appends_fallback_comment_witness :
    Prs.applyArmMetadata (fun _ => none) "not json" c7rec =
      Prs.ensureTrailingNewline "not json" ++
        ("// " ++ Prs.marker "R1" ++ "\n// title: " ++ "t") ++ "\n" :=
  (arm_parse_failure_appends_fallback_comment (fun _ => none) "not json"
    c7rec rfl).1

namespace RepoMapper

theorem fallbackScan_append (l1 : List TreeItem) (item : TreeItem)
    (l2 : List TreeItem) (m : IaCFileMatch)
    (hprev : ∀ g ∈ l1, patScan g.path fallbackPatterns = none)
    (hit : patScan item.path fallbackPatterns = some m) :
    fallbackScan (l1 ++ item :: l2) = some m := by
  induction l1 with
  | nil =>
    show fallbackScan (item :: l2) = some m
    unfold fallbackScan
    rw [hit]
  | cons g gs ih =>
    have hg := hprev g (List.mem_cons_self g gs)
    show fallbackScan (g :: (gs ++ item :: l2)) = some m
    unfold fallbackScan
    rw [hg]
    exact ih fun x hx => hprev x (List.mem_cons_of_mem g hx)

theorem find?_append_first {α : Type} (pred : α → Bool) (l1 : List α) (a : α)
    (l2 : List α) (hprev : ∀ g ∈ l1, pred g = false) (hit : pred a = true) :
    (l1 ++ a :: l2).find? pred = some a := by
  induction l1 with
  | nil => simp [List.find?_cons, hit]
  | cons g gs ih =>
    have hg := hprev g (List.mem_cons_self g gs)
    simp only [List.cons_append, List.find?_cons, hg]
    exact ih fun x hx => hprev x (List.mem_cons_of_mem g hx)

end RepoMapper

/-- The repository tree of the C1 counterexample: the earlier file
matches only the fourth (arm) fallback pattern, the later file matches
the first (terraform) pattern. -/
def c1tree : List RepoMapper.TreeItem :=
  [⟨"arm/a.json", .blob⟩, ⟨"infra/b.tf", .blob⟩]

/-- Counterexample to C1 as stated: on a resource with no tag hint and
no filename match, the mapper returns `arm/a.json` — the first file in
tree order, which matches only the later arm pattern — although
`infra/b.tf` matches the first pattern of the ordered pattern list, so
the pattern-list-major ordering the claim describes (computed here by
`fallbackPatternMajor`) would return `infra/b.tf`. -/
theorem fallback_file_major_counterexample :
    RepoMapper.findIaCFileForResource none "zz" c1tree =
      some ⟨"arm/a.json", .arm⟩ ∧
    RepoMapper.fallbackPatternMajor
      (c1tree.filter fun i => i.type == .blob) =
        some ⟨"infra/b.tf", .terraform⟩ ∧
    RepoMapper.tagStep (none : Option (List (String × String))) = none ∧
    RepoMapper.filenameStep (c1tree.filter fun i => i.type == .blob)
      (RepoMapper.normalizeResourceName "zz") = none ∧
    (some (⟨"arm/a.json", .arm⟩ : RepoMapper.IaCFileMatch) ≠
      some (⟨"infra/b.tf", .terraform⟩ : RepoMapper.IaCFileMatch)) := by
  refine ⟨?_, ?_, ?_, ?_, ?_⟩ <;> decide

/-- C1 (amended): for every resource that reaches the path-pattern
fallback step (no usable tag hint, no filename match), the mapper
returns the first file in FILE-list order that matches some fallback
pattern, the patterns being tried in pattern-list order only within
each file — a file appearing earlier in the tree is returned even if it
matches only a later pattern than a later file. -/
theorem fallback_returns_first_file_in_tree_order
    (tags : Option (List (String × String))) (name : String)
    (tree l1 : List RepoMapper.TreeItem) (item : RepoMapper.TreeItem)
    (l2 : List RepoMapper.TreeItem) (m : RepoMapper.IaCFileMatch)
    (htag : RepoMapper.tagStep tags = none)
    (hname : RepoMapper.filenameStep (tree.filter fun i => i.type == .blob)
      (RepoMapper.normalizeResourceName name) = none)
    (hfiles : tree.filter (fun i => i.type == .blob) = l1 ++ item :: l2)
    (hprev : ∀ g ∈ l1, RepoMapper.patScan g.path RepoMapper.fallbackPatterns = none)
    (hit : RepoMapper.patScan item.path RepoMapper.fallbackPatterns = some m) :
    RepoMapper.findIaCFileForResource tags name tree = some m := by
  simp only [RepoMapper.findIaCFileForResource, htag, hname]
  rw [hfiles]
  exact RepoMapper.fallbackScan_append l1 item l2 m hprev hit

/-- Witness for C1 (amended): a one-file tree whose file matches the
first fallback pattern is mapped to that file. -/
theorem fallback_returns_first_file_in_tree_order_witness :
    RepoMapper.findIaCFileForResource none "zz" [⟨"infra/b.tf", .blob⟩] =
      some ⟨"infra/b.tf", .terraform⟩ :=
  fallback_returns_first_file_in_tree_order none "zz" [⟨"infra/b.tf", .blob⟩]
    [] ⟨"infra/b.tf", .blob⟩ [] ⟨"infra/b.tf", .terraform⟩ (by decide)
    (by decide) (by decide) (by simp) (by decide)

/-- The repository tree of the C2 counterexample: the first
slug-matching file has an unrecognized extension, a later file matches
the slug and has a known extension. -/
def c2tree : List RepoMapper.TreeItem :=
  [⟨"vm1.txt", .blob⟩, ⟨"vm1.tf", .blob⟩]

/-- Counterexample to C2 as stated: the tree holds `vm1.tf`, whose
basename contains the slug `vm1` and whose extension maps to terraform
— by the claim the mapper should return it — yet the mapper returns
nothing, because the first slug match `vm1.txt` has an unrecognized
extension and the source then abandons filename matching rather than
trying later slug matches. -/
theorem filename_step_first_match_counterexample :
    RepoMapper.findIaCFileForResource none "vm1" c2tree = none ∧
    (⟨"vm1.tf", .blob⟩ : RepoMapper.TreeItem) ∈ c2tree ∧
    containsL (jsToLower (RepoMapper.baseName "vm1.tf")).data
      (RepoMapper.normalizeResourceName "vm1").data = true ∧
    RepoMapper.inferFormatFromPath "vm1.tf" = some .terraform := by
  refine ⟨?_, ?_, ?_, ?_⟩ <;> decide

/-- C2 (amended): with no usable tag hint and a non-empty slug, the
filename-match step considers only the FIRST blob whose lower-cased
basename contains the slug: if that file's extension maps to a known
IaC format the mapper returns it; if not, the mapper ignores any later
slug-matching files and proceeds to the path-pattern fallback. -/
theorem filename_step_first_slug_match_decides
    (tags : Option (List (String × String))) (name : String)
    (tree l1 : List RepoMapper.TreeItem) (item : RepoMapper.TreeItem)
    (l2 : List RepoMapper.TreeItem)
    (htag : RepoMapper.tagStep tags = none)
    (hslug : RepoMapper.normalizeResourceName name ≠ "")
    (hfiles : tree.filter (fun i => i.type == .blob) = l1 ++ item :: l2)
    (hprev : ∀ g ∈ l1, containsL (jsToLower (RepoMapper.baseName g.path)).data
      (RepoMapper.normalizeResourceName name).data = false)
    (hit : containsL (jsToLower (RepoMapper.baseName item.path)).data
      (RepoMapper.normalizeResourceName name).data = true) :
    (∀ fmt, RepoMapper.inferFormatFromPath item.path = some fmt →
      RepoMapper.findIaCFileForResource tags name tree = some ⟨item.path, fmt⟩) ∧
    (RepoMapper.inferFormatFromPath item.path = none →
      RepoMapper.findIaCFileForResource tags name tree =
        RepoMapper.fallbackScan (l1 ++ item :: l2)) := by
  have hb : (RepoMapper.normalizeResourceName name == "") = false := by
    simpa using hslug
  have hfind : (tree.filter fun i => i.type == .blob).find?
      (fun i => containsL (jsToLower (RepoMapper.baseName i.path)).data
        (RepoMapper.normalizeResourceName name).data) = some item := by
    rw [hfiles]
    exact RepoMapper.find?_append_first _ l1 item l2 hprev hit
  have hstep : RepoMapper.filenameStep (tree.filter fun i => i.type == .blob)
      (RepoMapper.normalizeResourceName name) =
        (RepoMapper.inferFormatFromPath item.path).map
          fun f => ⟨item.path, f⟩ := by
    unfold RepoMapper.filenameStep
    rw [hb]
    simp only [Bool.false_eq_true, if_false, hfind]
  constructor
  · intro fmt hfmt
    simp only [RepoMapper.findIaCFileForResource, htag, hstep, hfmt]
    rfl
  · intro hfmt
    simp only [RepoMapper.findIaCFileForResource, htag, hstep, hfmt]
    exact hfiles ▸ rfl

/-- Witness for C2 (amended): a one-file tree whose file's basename
contains the slug and whose extension is recognized is mapped to that
file. -/
theorem filename_step_first_slug_match_decides_witness :
    RepoMapper.findIaCFileForResource none "vm1" [⟨"vm1.tf", .blob⟩] =
      some ⟨"vm1.tf", .terraform⟩ :=
  (filename_step_first_slug_match_decides none "vm1" [⟨"vm1.tf", .blob⟩]
    [] ⟨"vm1.tf", .blob⟩ [] (by decide) (by decide) (by decide) (by simp)
    (by decide)).1 .terraform (by decide)

/-- C10: in `azure.disk.unattached`, the minimum-age gate applies only
when the disk's creation timestamp is present and parseable.  For a
disk whose `timeCreated` is absent or not a valid date, whether the
rule emits a payload for it is independent of the configured
`minAgeDays` — the disk is never skipped on age grounds. -/
theorem unattached_disk_age_gate_needs_parseable_date
    (resources : List Rules.CloudResourceM) (orgId : String)
    (now : ℤ) (dateParse : String → Option ℤ) (minImpact a b : ℚ)
    (disk : Rules.AzureDisk)
    (h : Rules.parseIsoDate dateParse disk.timeCreated = none) :
    (Rules.unattachedDiskProcess resources orgId now dateParse a minImpact
      disk).isSome =
    (Rules.unattachedDiskProcess resources orgId now dateParse b minImpact
      disk).isSome := by
  unfold Rules.unattachedDiskProcess
  cases hres : (resources.filter fun r =>
      r.organizationId == orgId && r.type == "Microsoft.Compute/disks").find?
        (fun r => r.resourceId == disk.id) with
  | none => rfl
  | some res =>
    simp only [h]
    split
    · simp
    · split <;> simp

/-- The unattached premium disk's resource row for the C10 witness. -/
def c10resource : Rules.CloudResourceM :=
  { resourceId := "d1", name := "disk1", type := "Microsoft.Compute/disks",
    organizationId := "o", subscriptionId := "s", tags := none,
    metrics := none, costMonthly := none }

/-- The unattached disk of the C10 witness: `timeCreated` absent. -/
def c10disk : Rules.AzureDisk :=
  { id := "d1", skuName := some "Premium_LRS", diskSizeGb := some 1000,
    timeCreated := none }

/-- Witness for C10: a disk without a creation timestamp is treated the
same under `minAgeDays = 7` and under `minAgeDays = 1000000`, and is in
fact emitted under the huge age threshold. -/
theorem unattached_disk_age_gate_needs_parseable_date_witness :
    (Rules.unattachedDiskProcess [c10resource] "o" 0 (fun _ => none) 7 10
        c10disk).isSome =
      (Rules.unattachedDiskProcess [c10resource] "o" 0 (fun _ => none)
        1000000 10 c10disk).isSome ∧
    (Rules.unattachedDiskProcess [c10resource] "o" 0 (fun _ => none)
        1000000 10 c10disk).isSome = true :=
  ⟨unattached_disk_age_gate_needs_parseable_date [c10resource] "o" 0
      (fun _ => none) 10 7 1000000 c10disk rfl,
   by with_unfolding_all decide⟩
